import Mathlib

/-!
A shallow embedding of the handle lifetime manager in ts/tensor.go of
the gotch repository.  The native engine (libtch) is external to the
repository; its behavior is modelled by parameters: a function env
giving each native handle its estimated byte size (the value the
source computes with ts.nbytes, that is Numel times DType size), and
Boolean flags stating whether the post-call error query TorchErr
reports an error after a given native call.  Native handles are
modelled as natural numbers; a cleared handle (Go nil) is Option.none.
-/

namespace Gotch

/-- Zero pads a decimal digit string on the left to the given width,
mirroring the Go formatting verb 09d. -/
def zeroPad (w : Nat) (s : String) : String :=
  String.mk (List.replicate (w - s.length) '0') ++ s

/-- The string produced by the Go format fragment 09d for an int64
value: total width 9, zero padded, sign ahead of the padding. -/
def pad9 (n : Int) : String :=
  if n < 0 then "-" ++ zeroPad 8 (toString (-n)) else zeroPad 9 (toString n)

/-- The process wide mutable state of ts/tensor.go: the counters
TensorCount and AllocatedMem and the registry ExistingTensors
(a Go map from name to the empty struct, that is a set of names).
All of it is guarded by the single mutex named lock in the source;
the embedding is sequential, each operation is one atomic step taken
with the lock held, exactly as the source brackets it with
lock.Lock and lock.Unlock. -/
structure GState where
  tensorCount : Int
  allocatedMem : Int
  existing : Finset String
deriving DecidableEq

/-- The Go struct Tensor: the wrapper name, the native handle field
ctensor (none is the Go nil sentinel left by a release), and the
provenance string calledFrom.  The padding field d of the source is
host allocation detail with no observable effect and is omitted. -/
structure Tensor where
  name : String
  ctensor : Option Nat
  calledFrom : String
deriving DecidableEq

/-- The function newName of the source: the explicit base name when
one was passed, otherwise tensor_ followed by the current value of
TensorCount formatted with 09d. -/
def newName (cnt : Int) (nameOpt : Option String) : String :=
  match nameOpt with
  | some n => n
  | none => "tensor_" ++ pad9 cnt

/-- The name registered by newTensor: the newName result, and on
collision with the registry the same base with an underscore and the
current TensorCount appended, exactly once (source lines 76 to 79). -/
def finalName (existing : Finset String) (cnt : Int) (nameOpt : Option String) : String :=
  let base := newName cnt nameOpt
  if base ∈ existing then base ++ "_" ++ pad9 cnt else base

/-- The function newTensor of the source: under the lock it increments
TensorCount, in debug mode adds the nbytes estimate of the new handle
(modelled env h) to AllocatedMem, computes the registered name and
inserts it into ExistingTensors.  The returned wrapper carries the
handle, the name and the provenance marker. -/
def newTensor (debug : Bool) (env : Nat → Int) (s : GState) (h : Nat)
    (nameOpt : Option String) : Tensor × GState :=
  let cnt := s.tensorCount + 1
  let mem := if debug then s.allocatedMem + env h else s.allocatedMem
  let name := finalName s.existing cnt nameOpt
  (⟨name, some h, "newTensor()"⟩, ⟨cnt, mem, insert name s.existing⟩)

/-- The observable outcome of one call to freeCTensor or Drop: the
updated wrapper, the updated global state, the handle passed to the
native routine AtFree if it was called, whether the double free
warning was logged, and the returned error (none is the Go nil). -/
structure FreeOutcome where
  ts : Tensor
  st : GState
  freed : Option Nat
  warned : Bool
  err : Option String
deriving DecidableEq

/-- The function freeCTensor of the source, one atomic step under the
lock.  Order as in the source: the nil handle guard returns first;
then a registry miss logs the double free warning and returns nil;
then in debug mode AllocatedMem is decremented by the recomputed byte
estimate (the source recomputes it from Size and DType on the same
handle, modelled as the same env h); then AtFree is called and the
error query is consulted (parameter freeErr): on error the error is
returned at once, BEFORE the registry delete and before the handle is
cleared, so those happen only when the native free succeeds. -/
def freeCTensor (debug : Bool) (env : Nat → Int) (freeErr : Bool) (s : GState)
    (ts : Tensor) : FreeOutcome :=
  match ts.ctensor with
  | none => ⟨ts, s, none, false, none⟩
  | some h =>
    if ts.name ∈ s.existing then
      let s1 : GState :=
        if debug then ⟨s.tensorCount, s.allocatedMem - env h, s.existing⟩ else s
      if freeErr then
        ⟨ts, s1, some h, false, some ("failed to release tensor " ++ ts.name)⟩
      else
        ⟨{ ts with ctensor := none },
         ⟨s1.tensorCount, s1.allocatedMem, s1.existing.erase ts.name⟩,
         some h, false, none⟩
    else
      ⟨ts, s, none, true, none⟩

/-- The method Drop of the source: a nil handle returns nil at once
with no effect at all; otherwise calledFrom is set and freeCTensor is
called. -/
def Drop (debug : Bool) (env : Nat → Int) (freeErr : Bool) (s : GState)
    (ts : Tensor) : FreeOutcome :=
  match ts.ctensor with
  | none => ⟨ts, s, none, false, none⟩
  | some _ => freeCTensor debug env freeErr s { ts with calledFrom := "ts.Drop()" }

/-- The function CheckCMemLeak of the source: under the lock it
snapshots the registered names and the AllocatedMem counter and
renders them into a diagnostic string.  Go map iteration order is
randomized, so the rendered name order is not determined; the
embedding returns the snapshot itself (name set and byte count), the
banner text around it being fixed formatting. -/
def CheckCMemLeak (s : GState) : Finset String × Int :=
  (s.existing, s.allocatedMem)

/-- One lifecycle event against the shared state: an acquire of a
fresh native handle with an optional requested base name (a call to
newTensor), or a release of the wrapper created by the i-th acquire
(a call to Drop; freeErr states whether the native error query
reports a failure after AtFree). -/
inductive Event where
  | acquire (h : Nat) (nameOpt : Option String)
  | release (i : Nat) (freeErr : Bool)
deriving DecidableEq

/-- The whole observable world: the shared state and every wrapper
created so far, in creation order, each reflecting its current
handle field. -/
structure World where
  gs : GState
  ws : List Tensor
deriving DecidableEq

/-- Executes one event: acquire appends the new wrapper, release runs
Drop on the selected wrapper and stores it back; a release index that
never was acquired does nothing. -/
def stepE (debug : Bool) (env : Nat → Int) (w : World) : Event → World
  | .acquire h nameOpt =>
    let r := newTensor debug env w.gs h nameOpt
    ⟨r.2, w.ws ++ [r.1]⟩
  | .release i freeErr =>
    match w.ws.get? i with
    | none => w
    | some t =>
      let o := Drop debug env freeErr w.gs t
      ⟨o.st, w.ws.set i o.ts⟩

/-- Executes a sequence of lifecycle events in order. -/
def runE (debug : Bool) (env : Nat → Int) : World → List Event → World
  | w, [] => w
  | w, e :: es => runE debug env (stepE debug env w e) es

/-- The state at process start: zero counters, empty registry, no
wrappers. -/
def initWorld : World := ⟨⟨0, 0, ∅⟩, []⟩

/-- Checks one event against the state it runs in: an acquire must
register a name that is not yet in the registry (the single
disambiguation step of the source guarantees this unless the
disambiguated name itself collides), and a release must either see a
successful native free or run with debug off (a failed free with
debug on leaves the byte counter decremented while the wrapper stays
live). -/
def okEventB (debug : Bool) (w : World) : Event → Bool
  | .acquire _ nameOpt =>
    !(decide (finalName w.gs.existing (w.gs.tensorCount + 1) nameOpt ∈ w.gs.existing))
  | .release _ freeErr => !freeErr || !debug

/-- Checks a whole event sequence stepwise. -/
def okRunB (debug : Bool) (env : Nat → Int) : World → List Event → Bool
  | _, [] => true
  | w, e :: es => okEventB debug w e && okRunB debug env (stepE debug env w e) es

/-- Every wrapper created so far has been released (its handle field
is the nil sentinel): the matched acquire and release condition. -/
def allReleasedB (w : World) : Bool :=
  w.ws.all (fun t => t.ctensor.isNone)

/-- The names of the wrappers whose handle field is still set, in
creation order. -/
def liveNames (ws : List Tensor) : List String :=
  (ws.filter (fun t => t.ctensor.isSome)).map (fun t => t.name)

/-- The byte contribution of one wrapper: its estimated size while
live, zero once released. -/
def tensorBytes (env : Nat → Int) (t : Tensor) : Int :=
  match t.ctensor with
  | some h => env h
  | none => 0

/-- The total estimated byte size of the wrappers whose handle field
is still set. -/
def liveBytes (env : Nat → Int) (ws : List Tensor) : Int :=
  (ws.map (tensorBytes env)).sum

/-- The bookkeeping invariant tying the shared state to the wrappers:
the registry is exactly the set of live wrapper names, live names are
pairwise distinct, and the byte counter is the live byte total in
debug mode and zero otherwise. -/
def Inv (debug : Bool) (env : Nat → Int) (w : World) : Prop :=
  w.gs.existing = (liveNames w.ws).toFinset
  ∧ (liveNames w.ws).Nodup
  ∧ w.gs.allocatedMem = (if debug then liveBytes env w.ws else 0)

/-- The dimension guard of the method Size of the source: dim is the
uint64 returned by AtDim, and the source tests dim less than zero or
dim greater than one hundred.  On the unsigned type the first test
never fires; the embedding keeps both tests, on Nat. -/
def sizeDimGuard (dim : Nat) : Bool :=
  decide (dim < 0) || decide (dim > 100)

/-- The outcome of the method Size: the shape slice on success, the
returned error if any, and whether the native shape routine AtShape
was reached. -/
structure SizeResult where
  shape : Option (List Int)
  err : Option String
  atShapeCalled : Bool
deriving DecidableEq

/-- The method Size of the source: the dimension guard returns first;
then DataAsPtr allocates the output buffer (its failure, code outside
this excerpt, is parameter dataAsPtrErr and also returns before
AtShape); then AtShape fills the buffer, the error query is consulted
(parameter torchErr), and decodeSize yields one int64 per dimension,
modelled as the native shape values shapeOf applied to each index. -/
def Size (dim : Nat) (shapeOf : Nat → Int) (dataAsPtrErr torchErr : Bool) : SizeResult :=
  if sizeDimGuard dim then ⟨none, some "Invalid dim", false⟩
  else if dataAsPtrErr then ⟨none, some "DataAsPtr error", false⟩
  else if torchErr then ⟨none, some "torch error", true⟩
  else ⟨some ((List.range dim).map shapeOf), none, true⟩

/-- Scenario: two consecutive acquires requesting the same base name. -/
def acquire2 (debug : Bool) (env : Nat → Int) (s : GState) (h1 h2 : Nat)
    (base : String) : (Tensor × GState) × (Tensor × GState) :=
  let r1 := newTensor debug env s h1 (some base)
  (r1, newTensor debug env r1.2 h2 (some base))

/-- Scenario: one acquire followed by one explicit release. -/
def acquireDrop (debug : Bool) (env : Nat → Int) (freeErr : Bool) (s : GState)
    (h : Nat) (nameOpt : Option String) : Tensor × FreeOutcome :=
  let r := newTensor debug env s h nameOpt
  (r.1, Drop debug env freeErr r.2 r.1)

/-- Scenario: one acquire followed by two releases of the same wrapper. -/
def acquireDropDrop (debug : Bool) (env : Nat → Int) (freeErr1 freeErr2 : Bool)
    (s : GState) (h : Nat) (nameOpt : Option String) : FreeOutcome × FreeOutcome :=
  let o1 := (acquireDrop debug env freeErr1 s h nameOpt).2
  (o1, Drop debug env freeErr2 o1.st o1.ts)

/-- Claim C8: every acquire increments the live object counter
TensorCount by exactly one, and in diagnostic mode additionally adds
the estimated byte footprint of the new handle to AllocatedMem,
leaving AllocatedMem untouched otherwise. -/
theorem acquire_increments_counters (debug : Bool) (env : Nat → Int)
    (s : GState) (h : Nat) (nameOpt : Option String) :
    (newTensor debug env s h nameOpt).2.tensorCount = s.tensorCount + 1
    ∧ (newTensor debug env s h nameOpt).2.allocatedMem
      = (if debug then s.allocatedMem + env h else s.allocatedMem) :=
  ⟨rfl, rfl⟩

/-- Claim C7: a wrapper is created with its handle field set; release
(freeCTensor, and Drop on top of it) either leaves the handle exactly
as it was or clears it to the released sentinel, and a cleared handle
is never resurrected: the only transition is live to released and it
is irreversible.  (The two states exclude each other because the
field is one Option value.  In the source the transition is performed
with the single process wide lock held, which the sequential
embedding renders by making each call one atomic step.) -/
theorem handle_lifecycle (debug : Bool) (env : Nat → Int) (freeErr : Bool)
    (s : GState) (ts : Tensor) (h : Nat) (nameOpt : Option String) :
    (newTensor debug env s h nameOpt).1.ctensor = some h
    ∧ ((freeCTensor debug env freeErr s ts).ts.ctensor = ts.ctensor
       ∨ (freeCTensor debug env freeErr s ts).ts.ctensor = none)
    ∧ (ts.ctensor = none → (freeCTensor debug env freeErr s ts).ts.ctensor = none)
    ∧ ((Drop debug env freeErr s ts).ts.ctensor = ts.ctensor
       ∨ (Drop debug env freeErr s ts).ts.ctensor = none)
    ∧ (ts.ctensor = none → (Drop debug env freeErr s ts).ts.ctensor = none) := by
  refine ⟨rfl, ?_, ?_, ?_, ?_⟩
  · cases hc : ts.ctensor with
    | none => simp [freeCTensor, hc]
    | some h2 =>
      by_cases hm : ts.name ∈ s.existing
      · by_cases hf : freeErr <;> simp [freeCTensor, hc, hm, hf]
      · simp [freeCTensor, hc, hm]
  · intro h0; simp [freeCTensor, h0]
  · cases hc : ts.ctensor with
    | none => simp [Drop, hc]
    | some h2 =>
      by_cases hm : ts.name ∈ s.existing
      · by_cases hf : freeErr <;> simp [Drop, freeCTensor, hc, hm, hf]
      · simp [Drop, freeCTensor, hc, hm]
  · intro h0; simp [Drop, h0]

/-- Witness for handle_lifecycle at a concrete released wrapper. -/
theorem handle_lifecycle_witness :
    (freeCTensor false (fun _ => 0) false ⟨0, 0, ∅⟩ ⟨"a", none, "x"⟩).ts.ctensor = none :=
  (handle_lifecycle false (fun _ => 0) false ⟨0, 0, ∅⟩ ⟨"a", none, "x"⟩ 0 none).2.2.1 rfl

/-- Claim C10: when the native dimension query exceeds one hundred,
Size returns an error without reaching the native shape routine; a
successful Size never returns a shape longer than one hundred; and
the dimension guard is equivalent to the single test dim greater than
one hundred, the negative test being unreachable on the unsigned
dimension. -/
theorem size_dim_guard_props (dim : Nat) (shapeOf : Nat → Int) (de te : Bool) :
    (dim > 100 → (Size dim shapeOf de te).err.isSome = true
      ∧ (Size dim shapeOf de te).atShapeCalled = false)
    ∧ (∀ l, (Size dim shapeOf de te).shape = some l → l.length ≤ 100)
    ∧ sizeDimGuard dim = decide (dim > 100) := by
  refine ⟨?_, ?_, ?_⟩
  · intro hgt
    have hg : sizeDimGuard dim = true := by
      simp [sizeDimGuard]; omega
    simp [Size, hg]
  · intro l hl
    by_cases hg : sizeDimGuard dim = true
    · simp [Size, hg] at hl
    · have hle : dim ≤ 100 := by
        by_contra hc
        exact hg (by simp [sizeDimGuard]; omega)
      cases de <;> cases te <;> simp [Size, hg] at hl
      simp [← hl, hle]
  · simp [sizeDimGuard]

/-- Witness for size_dim_guard_props at dimensions 101 and 3. -/
theorem size_dim_guard_props_witness :
    ((Size 101 (fun _ => 2) false false).err.isSome = true
      ∧ (Size 101 (fun _ => 2) false false).atShapeCalled = false)
    ∧ ((List.range 3).map (fun _ => (2 : Int))).length ≤ 100 :=
  ⟨(size_dim_guard_props 101 (fun _ => 2) false false).1 (by decide),
   (size_dim_guard_props 3 (fun _ => 2) false false).2.1 _ rfl⟩

/-- Appending preserves the live name listing. -/
theorem liveNames_append (l1 l2 : List Tensor) :
    liveNames (l1 ++ l2) = liveNames l1 ++ liveNames l2 := by
  simp [liveNames]

/-- A live head contributes its name. -/
theorem liveNames_cons_live {t : Tensor} {h : Nat} (hc : t.ctensor = some h)
    (l : List Tensor) : liveNames (t :: l) = t.name :: liveNames l := by
  simp [liveNames, List.filter_cons, hc]

/-- A released head contributes nothing. -/
theorem liveNames_cons_dead {t : Tensor} (hc : t.ctensor = none)
    (l : List Tensor) : liveNames (t :: l) = liveNames l := by
  simp [liveNames, List.filter_cons, hc]

/-- A live wrapper contributes its estimated size. -/
theorem tensorBytes_live (env : Nat → Int) {t : Tensor} {h : Nat}
    (hc : t.ctensor = some h) : tensorBytes env t = env h := by
  simp [tensorBytes, hc]

/-- A released wrapper contributes zero bytes. -/
theorem tensorBytes_dead (env : Nat → Int) {t : Tensor}
    (hc : t.ctensor = none) : tensorBytes env t = 0 := by
  simp [tensorBytes, hc]

/-- Unfolding of the live byte total over a cons. -/
theorem liveBytes_cons (env : Nat → Int) (t : Tensor) (l : List Tensor) :
    liveBytes env (t :: l) = tensorBytes env t + liveBytes env l := by
  simp [liveBytes]

/-- Appending adds the live byte totals. -/
theorem liveBytes_append (env : Nat → Int) (l1 l2 : List Tensor) :
    liveBytes env (l1 ++ l2) = liveBytes env l1 + liveBytes env l2 := by
  simp [liveBytes]

/-- A live member name is listed among the live names. -/
theorem name_mem_liveNames {t : Tensor} {l : List Tensor} (h1 : t ∈ l)
    (h2 : t.ctensor.isSome = true) : t.name ∈ liveNames l :=
  List.mem_map_of_mem _ (List.mem_filter.2 ⟨h1, h2⟩)

/-- Writing back the element already stored at an index is the
identity. -/
theorem set_get?_eq_self : ∀ (l : List Tensor) (i : Nat) (t : Tensor),
    l.get? i = some t → l.set i t = l := by
  intro l
  induction l with
  | nil => intro i t h; simp at h
  | cons a l ih =>
    intro i t h
    cases i with
    | zero =>
      have ha : a = t := by simpa using h
      simp [ha]
    | succ j =>
      have hj : l.get? j = some t := by simpa using h
      simpa using ih j t hj

/-- Replacing a live wrapper at an index with a released one with the
same name removes exactly that name from the live listing. -/
theorem liveNames_set_of_dead : ∀ (l : List Tensor) (i : Nat) (t u : Tensor),
    l.get? i = some t → t.ctensor.isSome = true → u.ctensor = none →
    u.name = t.name → (liveNames l).Nodup →
    liveNames (l.set i u) = (liveNames l).erase t.name := by
  intro l
  induction l with
  | nil => intro i t u h; simp at h
  | cons a l ih =>
    intro i t u hget hlive hdead hname hnd
    cases i with
    | zero =>
      obtain rfl : a = t := by simpa using hget
      obtain ⟨h, hh⟩ := Option.isSome_iff_exists.1 hlive
      show liveNames (u :: l) = (liveNames (a :: l)).erase a.name
      rw [liveNames_cons_dead hdead, liveNames_cons_live hh,
        List.erase_cons_head]
    | succ j =>
      have hget2 : l.get? j = some t := by simpa using hget
      have htmem : t ∈ l := List.get?_mem hget2
      show liveNames (a :: l.set j u) = (liveNames (a :: l)).erase t.name
      cases hac : a.ctensor with
      | none =>
        rw [liveNames_cons_dead hac, liveNames_cons_dead hac]
        rw [liveNames_cons_dead hac] at hnd
        exact ih j t u hget2 hlive hdead hname hnd
      | some h2 =>
        rw [liveNames_cons_live hac, liveNames_cons_live hac]
        rw [liveNames_cons_live hac] at hnd
        have hanm : a.name ∉ liveNames l := (List.nodup_cons.1 hnd).1
        have htnm : t.name ∈ liveNames l := name_mem_liveNames htmem hlive
        have hneq : a.name ≠ t.name := fun he => hanm (he ▸ htnm)
        rw [List.erase_cons_tail (by simpa using hneq)]
        rw [ih j t u hget2 hlive hdead hname (List.nodup_cons.1 hnd).2]

/-- Replacing a live wrapper at an index with a released one removes
exactly its byte contribution. -/
theorem liveBytes_set_of_dead (env : Nat → Int) :
    ∀ (l : List Tensor) (i : Nat) (t u : Tensor) (h : Nat),
    l.get? i = some t → t.ctensor = some h → u.ctensor = none →
    liveBytes env (l.set i u) = liveBytes env l - env h := by
  intro l
  induction l with
  | nil => intro i t u h hget; simp at hget
  | cons a l ih =>
    intro i t u h hget hc hd
    cases i with
    | zero =>
      obtain rfl : a = t := by simpa using hget
      show liveBytes env (u :: l) = liveBytes env (a :: l) - env h
      rw [liveBytes_cons, liveBytes_cons, tensorBytes_dead env hd,
        tensorBytes_live env hc]
      omega
    | succ j =>
      have hget2 : l.get? j = some t := by simpa using hget
      show liveBytes env (a :: l.set j u) = liveBytes env (a :: l) - env h
      rw [liveBytes_cons, liveBytes_cons, ih j t u h hget2 hc hd]
      omega

/-- Replacing a wrapper by one with the same name and handle field
leaves the live name listing unchanged. -/
theorem liveNames_set_of_same : ∀ (l : List Tensor) (i : Nat) (t u : Tensor),
    l.get? i = some t → u.name = t.name → u.ctensor = t.ctensor →
    liveNames (l.set i u) = liveNames l := by
  intro l
  induction l with
  | nil => intro i t u h; simp at h
  | cons a l ih =>
    intro i t u hget hname hc
    cases i with
    | zero =>
      obtain rfl : a = t := by simpa using hget
      show liveNames (u :: l) = liveNames (a :: l)
      cases htc : a.ctensor with
      | none =>
        rw [liveNames_cons_dead (hc.trans htc), liveNames_cons_dead htc]
      | some h2 =>
        rw [liveNames_cons_live (hc.trans htc), liveNames_cons_live htc, hname]
    | succ j =>
      have hget2 : l.get? j = some t := by simpa using hget
      show liveNames (a :: l.set j u) = liveNames (a :: l)
      cases hac : a.ctensor with
      | none => rw [liveNames_cons_dead hac, liveNames_cons_dead hac,
          ih j t u hget2 hname hc]
      | some h2 => rw [liveNames_cons_live hac, liveNames_cons_live hac,
          ih j t u hget2 hname hc]

/-- Replacing a wrapper by one with the same handle field leaves the
live byte total unchanged. -/
theorem liveBytes_set_of_same (env : Nat → Int) :
    ∀ (l : List Tensor) (i : Nat) (t u : Tensor),
    l.get? i = some t → u.ctensor = t.ctensor →
    liveBytes env (l.set i u) = liveBytes env l := by
  intro l
  induction l with
  | nil => intro i t u h; simp at h
  | cons a l ih =>
    intro i t u hget hc
    cases i with
    | zero =>
      obtain rfl : a = t := by simpa using hget
      show liveBytes env (u :: l) = liveBytes env (a :: l)
      rw [liveBytes_cons, liveBytes_cons]
      rw [show tensorBytes env u = tensorBytes env a by simp [tensorBytes, hc]]
    | succ j =>
      have hget2 : l.get? j = some t := by simpa using hget
      show liveBytes env (a :: l.set j u) = liveBytes env (a :: l)
      rw [liveBytes_cons, liveBytes_cons, ih j t u hget2 hc]

/-- One checked event preserves the bookkeeping invariant. -/
theorem inv_step (debug : Bool) (env : Nat → Int) (w : World) (e : Event)
    (hInv : Inv debug env w) (hOk : okEventB debug w e = true) :
    Inv debug env (stepE debug env w e) := by
  obtain ⟨hreg, hnd, hmem⟩ := hInv
  cases e with
  | acquire h nameOpt =>
    have hfresh : finalName w.gs.existing (w.gs.tensorCount + 1) nameOpt ∉ w.gs.existing := by
      simpa [okEventB] using hOk
    unfold Inv
    dsimp only [stepE, newTensor]
    set n := finalName w.gs.existing (w.gs.tensorCount + 1) nameOpt with hn
    have h1 : liveNames [(⟨n, some h, "newTensor()"⟩ : Tensor)] = [n] := rfl
    have h2 : liveBytes env [(⟨n, some h, "newTensor()"⟩ : Tensor)] = env h := by
      simp [liveBytes, tensorBytes]
    refine ⟨?_, ?_, ?_⟩
    · rw [hreg, liveNames_append, h1, List.toFinset_append]
      ext x
      simp [or_comm]
    · rw [liveNames_append, h1, List.nodup_append]
      refine ⟨hnd, List.nodup_singleton _, ?_⟩
      intro a ha hb
      rw [List.mem_singleton] at hb
      subst hb
      exact hfresh (by rw [hreg]; exact List.mem_toFinset.2 ha)
    · cases debug with
      | false => simpa using hmem
      | true =>
        simp only [if_true] at hmem ⊢
        rw [liveBytes_append, h2, hmem]
  | release i freeErr =>
    cases hw : w.ws[i]? with
    | none =>
      have hid : stepE debug env w (.release i freeErr) = w := by
        simp [stepE, hw]
      rw [hid]
      exact ⟨hreg, hnd, hmem⟩
    | some t =>
      have hwg : w.ws.get? i = some t := by
        rw [List.get?_eq_getElem?]; exact hw
      cases hc : t.ctensor with
      | none =>
        have hset : w.ws.set i t = w.ws := set_get?_eq_self _ _ _ hwg
        have hid : stepE debug env w (.release i freeErr) = w := by
          simp [stepE, hw, Drop, hc, hset]
        rw [hid]
        exact ⟨hreg, hnd, hmem⟩
      | some h =>
        have htmem : t ∈ w.ws := List.get?_mem hwg
        have hnm : t.name ∈ w.gs.existing := by
          rw [hreg]
          exact List.mem_toFinset.2 (name_mem_liveNames htmem (by simp [hc]))
        cases freeErr with
        | false =>
          have hout : stepE debug env w (.release i false)
              = ⟨⟨w.gs.tensorCount,
                  (if debug then w.gs.allocatedMem - env h else w.gs.allocatedMem),
                  w.gs.existing.erase t.name⟩,
                 w.ws.set i ⟨t.name, none, "ts.Drop()"⟩⟩ := by
            cases debug <;> simp [stepE, hw, Drop, freeCTensor, hc, hnm]
          rw [hout]
          have hln : liveNames (w.ws.set i ⟨t.name, none, "ts.Drop()"⟩)
              = (liveNames w.ws).erase t.name :=
            liveNames_set_of_dead w.ws i t _ hwg (by simp [hc]) rfl rfl hnd
          refine ⟨?_, ?_, ?_⟩
          · show w.gs.existing.erase t.name = _
            rw [hln, hreg]
            ext x
            rw [Finset.mem_erase, List.mem_toFinset, List.mem_toFinset,
              hnd.mem_erase_iff]
          · show ((liveNames _).Nodup)
            rw [hln]
            exact hnd.erase _
          · show (if debug then w.gs.allocatedMem - env h else w.gs.allocatedMem) = _
            have hlb : liveBytes env (w.ws.set i ⟨t.name, none, "ts.Drop()"⟩)
                = liveBytes env w.ws - env h :=
              liveBytes_set_of_dead env w.ws i t _ h hwg hc rfl
            cases debug with
            | false => simpa using hmem
            | true =>
              simp only [if_true] at hmem ⊢
              rw [hlb, hmem]
        | true =>
          have hdf : debug = false := by
            simpa [okEventB] using hOk
          subst hdf
          have hout : stepE false env w (.release i true)
              = ⟨w.gs, w.ws.set i ⟨t.name, some h, "ts.Drop()"⟩⟩ := by
            simp [stepE, hw, Drop, freeCTensor, hc, hnm]
          rw [hout]
          have hln : liveNames (w.ws.set i ⟨t.name, some h, "ts.Drop()"⟩)
              = liveNames w.ws :=
            liveNames_set_of_same w.ws i t _ hwg rfl hc.symm
          refine ⟨?_, ?_, ?_⟩
          · show w.gs.existing = _
            rw [hln]
            exact hreg
          · show ((liveNames _).Nodup)
            rw [hln]
            exact hnd
          · simpa using hmem

/-- A checked event sequence preserves the bookkeeping invariant. -/
theorem inv_runE (debug : Bool) (env : Nat → Int) :
    ∀ (es : List Event) (w : World), Inv debug env w →
      okRunB debug env w es = true → Inv debug env (runE debug env w es) := by
  intro es
  induction es with
  | nil => intro w hw _; exact hw
  | cons e es ih =>
    intro w hw hok
    rw [okRunB, Bool.and_eq_true] at hok
    exact ih _ (inv_step debug env w e hw hok.1) hok.2

/-- The initial world satisfies the bookkeeping invariant. -/
theorem inv_initWorld (debug : Bool) (env : Nat → Int) :
    Inv debug env initWorld := by
  refine ⟨rfl, List.nodup_nil, ?_⟩
  cases debug <;> rfl

/-- One step with debug off never touches AllocatedMem. -/
theorem stepE_allocatedMem_nondebug (env : Nat → Int) (w : World) (e : Event) :
    (stepE false env w e).gs.allocatedMem = w.gs.allocatedMem := by
  cases e with
  | acquire h nameOpt => rfl
  | release i freeErr =>
    cases hw : w.ws[i]? with
    | none => simp [stepE, hw]
    | some t =>
      cases hc : t.ctensor with
      | none => simp [stepE, hw, Drop, hc]
      | some h =>
        by_cases hm : t.name ∈ w.gs.existing
        · cases freeErr <;> simp [stepE, hw, Drop, freeCTensor, hc, hm]
        · simp [stepE, hw, Drop, freeCTensor, hc, hm]

/-- A run with debug off never touches AllocatedMem. -/
theorem runE_allocatedMem_nondebug (env : Nat → Int) :
    ∀ (es : List Event) (w : World),
      (runE false env w es).gs.allocatedMem = w.gs.allocatedMem := by
  intro es
  induction es with
  | nil => intro w; rfl
  | cons e es ih =>
    intro w
    rw [runE, ih, stepE_allocatedMem_nondebug]

/-- Claim C4: two consecutive acquires requesting the same base name,
the base not yet registered, obtain distinct registry entries: the
first gets the base itself, the second gets the base with the running
created object counter appended, and both are in the registry. -/
theorem name_collision_disambiguation (debug : Bool) (env : Nat → Int)
    (s : GState) (h1 h2 : Nat) (base : String) (hfresh : base ∉ s.existing) :
    (acquire2 debug env s h1 h2 base).1.1.name = base
    ∧ (acquire2 debug env s h1 h2 base).2.1.name
      = base ++ "_" ++ pad9 (s.tensorCount + 2)
    ∧ (acquire2 debug env s h1 h2 base).1.1.name
      ≠ (acquire2 debug env s h1 h2 base).2.1.name
    ∧ (acquire2 debug env s h1 h2 base).1.1.name
      ∈ (acquire2 debug env s h1 h2 base).2.2.existing
    ∧ (acquire2 debug env s h1 h2 base).2.1.name
      ∈ (acquire2 debug env s h1 h2 base).2.2.existing := by
  have hcnt : s.tensorCount + 1 + 1 = s.tensorCount + 2 := by ring
  have hne : base ≠ base ++ "_" ++ pad9 (s.tensorCount + 2) := by
    intro heq
    have hl := congrArg String.length heq
    rw [String.length_append, String.length_append] at hl
    have h1 : ("_" : String).length = 1 := rfl
    omega
  refine ⟨?_, ?_, ?_, ?_, ?_⟩ <;>
    simp [acquire2, newTensor, finalName, newName, hfresh, hcnt, hne]

/-- Witness for name_collision_disambiguation from the empty state. -/
theorem name_collision_disambiguation_witness :
    "a" ∉ (∅ : Finset String)
    ∧ ((acquire2 false (fun _ => 4) ⟨0, 0, ∅⟩ 0 1 "a").1.1.name = "a"
      ∧ (acquire2 false (fun _ => 4) ⟨0, 0, ∅⟩ 0 1 "a").2.1.name
        = "a" ++ "_" ++ pad9 ((0 : Int) + 2)
      ∧ (acquire2 false (fun _ => 4) ⟨0, 0, ∅⟩ 0 1 "a").1.1.name
        ≠ (acquire2 false (fun _ => 4) ⟨0, 0, ∅⟩ 0 1 "a").2.1.name
      ∧ (acquire2 false (fun _ => 4) ⟨0, 0, ∅⟩ 0 1 "a").1.1.name
        ∈ (acquire2 false (fun _ => 4) ⟨0, 0, ∅⟩ 0 1 "a").2.2.existing
      ∧ (acquire2 false (fun _ => 4) ⟨0, 0, ∅⟩ 0 1 "a").2.1.name
        ∈ (acquire2 false (fun _ => 4) ⟨0, 0, ∅⟩ 0 1 "a").2.2.existing) :=
  ⟨by decide,
   name_collision_disambiguation false (fun _ => 4) ⟨0, 0, ∅⟩ 0 1 "a" (by decide)⟩

/-- Claim C1 counterexample: acquire one wrapper named a, then
release it with the native free reporting an error.  The error is
returned, yet the registry still holds a and the handle field is
still set: the host side cleanup did NOT happen before the error
return, refuting the claim. -/
theorem release_error_cleanup_cex :
    ((acquireDrop false (fun _ => 4) true ⟨0, 0, ∅⟩ 7 (some "a")).2.err.isSome = true)
    ∧ "a" ∈ (acquireDrop false (fun _ => 4) true ⟨0, 0, ∅⟩ 7 (some "a")).2.st.existing
    ∧ (acquireDrop false (fun _ => 4) true ⟨0, 0, ∅⟩ 7 (some "a")).2.ts.ctensor = some 7
    ∧ (acquireDrop false (fun _ => 4) true ⟨0, 0, ∅⟩ 7 (some "a")).2.freed = some 7 := by
  decide

/-- Claim C1 amended: when the native free reports an error,
freeCTensor returns the error with the registry entry still present
and the handle field still set; entry removal and handle clearing
happen only when the native free succeeds (in debug mode the byte
counter has nevertheless already been decremented by then). -/
theorem release_error_no_cleanup (debug : Bool) (env : Nat → Int) (s : GState)
    (nm cf : String) (h : Nat) (hmem : nm ∈ s.existing) :
    (freeCTensor debug env true s ⟨nm, some h, cf⟩).err.isSome = true
    ∧ (freeCTensor debug env true s ⟨nm, some h, cf⟩).ts.ctensor = some h
    ∧ (freeCTensor debug env true s ⟨nm, some h, cf⟩).st.existing = s.existing
    ∧ (freeCTensor debug env true s ⟨nm, some h, cf⟩).st.allocatedMem
      = (if debug then s.allocatedMem - env h else s.allocatedMem) := by
  cases debug <;> simp [freeCTensor, hmem]

/-- Witness for release_error_no_cleanup at a concrete registered
wrapper. -/
theorem release_error_no_cleanup_witness :
    "a" ∈ ({"a"} : Finset String)
    ∧ (freeCTensor false (fun _ => 4) true ⟨1, 0, {"a"}⟩ ⟨"a", some 7, "x"⟩).err.isSome = true :=
  ⟨by decide,
   (release_error_no_cleanup false (fun _ => 4) ⟨1, 0, {"a"}⟩ "a" "x" 7 (by decide)).1⟩

/-- Claim C2 counterexample: acquire, release successfully, release
again.  The second Drop returns nil and does not call the native
free, but it also does NOT log the double free warning: the cleared
handle guard returns silently, refuting the stated behavior that the
second call logs a warning. -/
theorem double_release_warning_cex :
    ((acquireDropDrop false (fun _ => 4) false false ⟨0, 0, ∅⟩ 7 (some "a")).2.warned = false)
    ∧ (acquireDropDrop false (fun _ => 4) false false ⟨0, 0, ∅⟩ 7 (some "a")).2.err = none
    ∧ (acquireDropDrop false (fun _ => 4) false false ⟨0, 0, ∅⟩ 7 (some "a")).2.freed = none := by
  decide

/-- Claim C2 amended: once the handle field is the released sentinel
(as after a successful release), any further release of the wrapper,
explicit Drop or finalizer driven freeCTensor, returns nil with no
native free call, no fatal error and no state change, and WITHOUT the
warning; the double free warning is logged (still returning nil, no
native free) only when the handle is still set but the name is absent
from the registry, as in a finalizer racing an explicit release. -/
theorem double_release_silent (debug : Bool) (env : Nat → Int) (freeErr : Bool)
    (s : GState) (ts : Tensor) :
    (ts.ctensor = none →
      Drop debug env freeErr s ts = ⟨ts, s, none, false, none⟩
      ∧ freeCTensor debug env freeErr s ts = ⟨ts, s, none, false, none⟩)
    ∧ (∀ h, ts.ctensor = some h → ts.name ∉ s.existing →
      freeCTensor debug env freeErr s ts = ⟨ts, s, none, true, none⟩) := by
  constructor
  · intro h0
    exact ⟨by simp [Drop, h0], by simp [freeCTensor, h0]⟩
  · intro h hc hm
    simp [freeCTensor, hc, hm]

/-- Witness for double_release_silent at a concrete released
wrapper. -/
theorem double_release_silent_witness :
    (⟨"a", none, "x"⟩ : Tensor).ctensor = none
    ∧ Drop false (fun _ => 4) false ⟨0, 0, ∅⟩ ⟨"a", none, "x"⟩
      = ⟨⟨"a", none, "x"⟩, ⟨0, 0, ∅⟩, none, false, none⟩ :=
  ⟨rfl,
   ((double_release_silent false (fun _ => 4) false ⟨0, 0, ∅⟩ ⟨"a", none, "x"⟩).1 rfl).1⟩

/-- Claim C3 counterexample: acquire then release exactly once, the
native free reporting an error: the handle was passed to the native
free, yet the registry afterwards STILL contains the wrapper name,
refuting the claim that it contains no entry for it. -/
theorem single_release_registry_cex :
    ((acquireDrop false (fun _ => 4) true ⟨0, 0, ∅⟩ 7 (some "a")).1.name = "a")
    ∧ (acquireDrop false (fun _ => 4) true ⟨0, 0, ∅⟩ 7 (some "a")).2.freed = some 7
    ∧ "a" ∈ (acquireDrop false (fun _ => 4) true ⟨0, 0, ∅⟩ 7 (some "a")).2.st.existing := by
  decide

/-- Claim C3 amended: for a wrapper acquired and then released
exactly once, the handle is passed to the native free routine exactly
once (by that single release; the acquire passes nothing), and
provided the native free reports no error the registry afterwards
contains no entry for the wrapper name and the handle field is
cleared. -/
theorem single_release_clears (debug : Bool) (env : Nat → Int) (s : GState)
    (h : Nat) (nameOpt : Option String) :
    (acquireDrop debug env false s h nameOpt).2.freed = some h
    ∧ (acquireDrop debug env false s h nameOpt).1.name
      ∉ (acquireDrop debug env false s h nameOpt).2.st.existing
    ∧ (acquireDrop debug env false s h nameOpt).2.ts.ctensor = none
    ∧ (acquireDrop debug env false s h nameOpt).2.err = none := by
  cases debug <;>
    simp [acquireDrop, newTensor, Drop, freeCTensor, Finset.mem_insert_self,
      Finset.not_mem_erase]

/-- Claim C5 counterexample: one matched acquire and release pair in
diagnostic mode where the native free reports an error: the leak
report taken immediately afterwards lists the wrapper name instead of
the empty name set (the byte counter happens to read zero only
because the debug decrement precedes the error return). -/
theorem leak_report_matched_cex :
    (CheckCMemLeak (runE true (fun _ => 4) initWorld
      [Event.acquire 0 (some "a"), Event.release 0 true]).gs).1 = {"a"} := by
  decide

/-- Claim C5 amended: after any sequence of matched acquire and
release pairs in which every native free succeeds (or debug is off)
and every acquire registers a fresh name, the leak report snapshot is
the empty name set and zero outstanding bytes; in general the report
is exactly the registry contents and the byte counter, read in one
locked step. -/
theorem leak_report_matched_empty (debug : Bool) (env : Nat → Int)
    (es : List Event) (hok : okRunB debug env initWorld es = true)
    (hall : allReleasedB (runE debug env initWorld es) = true) :
    CheckCMemLeak (runE debug env initWorld es).gs = (∅, 0) := by
  obtain ⟨hreg, hnd, hmem⟩ :=
    inv_runE debug env es initWorld (inv_initWorld debug env) hok
  have hdead : ∀ t ∈ (runE debug env initWorld es).ws, t.ctensor = none := by
    intro t ht
    have := List.all_eq_true.1 hall t ht
    exact Option.isNone_iff_eq_none.1 this
  have hlive : liveNames (runE debug env initWorld es).ws = [] := by
    unfold liveNames
    rw [List.filter_eq_nil_iff.2 (fun t ht => by simp [hdead t ht])]
    rfl
  have hbytes : liveBytes env (runE debug env initWorld es).ws = 0 := by
    unfold liveBytes
    refine List.sum_eq_zero ?_
    intro x hx
    obtain ⟨t, ht, rfl⟩ := List.mem_map.1 hx
    exact tensorBytes_dead env (hdead t ht)
  have hex : (runE debug env initWorld es).gs.existing = ∅ := by
    rw [hreg, hlive]
    rfl
  have hm0 : (runE debug env initWorld es).gs.allocatedMem = 0 := by
    rw [hmem, hbytes]
    cases debug <;> rfl
  rw [CheckCMemLeak, hex, hm0]

/-- Witness for leak_report_matched_empty on a concrete matched
two wrapper run in diagnostic mode. -/
theorem leak_report_matched_empty_witness :
    okRunB true (fun _ => 4) initWorld
      [Event.acquire 0 (some "a"), Event.release 0 false,
       Event.acquire 1 (some "b"), Event.release 1 false] = true
    ∧ allReleasedB (runE true (fun _ => 4) initWorld
      [Event.acquire 0 (some "a"), Event.release 0 false,
       Event.acquire 1 (some "b"), Event.release 1 false]) = true
    ∧ CheckCMemLeak (runE true (fun _ => 4) initWorld
      [Event.acquire 0 (some "a"), Event.release 0 false,
       Event.acquire 1 (some "b"), Event.release 1 false]).gs = (∅, 0) :=
  ⟨by decide, by decide,
   leak_report_matched_empty true (fun _ => 4)
     [Event.acquire 0 (some "a"), Event.release 0 false,
      Event.acquire 1 (some "b"), Event.release 1 false]
     (by decide) (by decide)⟩

/-- Claim C9: with diagnostic mode off, no acquire or release step
ever modifies AllocatedMem, so after any event sequence from process
start the byte figure of the leak report is zero regardless of how
many wrappers are still live. -/
theorem nondebug_allocatedMem_zero (env : Nat → Int) (es : List Event) :
    (∀ (w : World) (e : Event),
      (stepE false env w e).gs.allocatedMem = w.gs.allocatedMem)
    ∧ (runE false env initWorld es).gs.allocatedMem = 0
    ∧ (CheckCMemLeak (runE false env initWorld es).gs).2 = 0 := by
  refine ⟨stepE_allocatedMem_nondebug env, ?_, ?_⟩
  · rw [runE_allocatedMem_nondebug env es initWorld]
    rfl
  · show (runE false env initWorld es).gs.allocatedMem = 0
    rw [runE_allocatedMem_nondebug env es initWorld]
    rfl

end Gotch
